import Mathlib

/-!
# Verification of the EHAL generic device interface (`device_intrf.h`)

Shallow embedding of the `DEVINTRF` handle and its inline wrapper functions
from `src/include/device_intrf.h`.  The concrete transport implementation
(the mandatory function slots of `struct __device_intrf`) is modelled as a
record of functions acting on the implementation-private state `pDevData`
(type parameter `α`); per the data model, the handle's `Busy` flag and
`EnCnt` reference count are updated exclusively by the wrappers through the
atomic primitives, never by the implementation slots.

The wrappers additionally return a trace of implementation-slot invocations
(`ImplCall`), pure instrumentation used to state the "invoked exactly once /
not invoked" parts of the claims; the state transformation itself mirrors
the C code line by line.
-/

/-- The device-interface event types (`DEVINTRF_EVT`). -/
inductive DEVINTRF_EVT where
  | rxTimeout
  | rxData
  | rxFifoFull
  | txTimeout
  | txReady
  | txFifoFull
  | stateChg
deriving DecidableEq, Repr

/-- Event-handler callback model (`DEVINTRF_EVTCB`): from event id and
buffer length to number of bytes processed.  (The `pDev` and buffer-content
arguments carry no information used by any wrapper in `device_intrf.h`,
which never invokes the callback, so they are dropped here.) -/
def DEVINTRF_EVTCB : Type := DEVINTRF_EVT → Int → Int

/-- One invocation of a mandatory implementation slot.  Traces of these are
instrumentation recording which underlying routines a wrapper invoked. -/
inductive ImplCall where
  | disable
  | enable
  | startRx (devAddr : Int)
  | rxDataC (buffLen : Int)
  | stopRx
  | startTx (devAddr : Int)
  | txDataC (dataLen : Int)
  | stopTx
  | reset
deriving DecidableEq, Repr

/-- The mandatory operation slots of `struct __device_intrf`, acting on the
implementation-private state `α` (`pDevData`).  All slots are mandatory
except `Reset`, which "may be null and is skipped": it is an `Option`. -/
structure DevImpl (α : Type) where
  Disable : α → α
  Enable : α → α
  GetRate : α → Int
  SetRate : α → Int → α × Int
  StartRx : α → Int → α × Bool
  RxData : α → Int → α × Int
  StopRx : α → α
  StartTx : α → Int → α × Bool
  TxData : α → Int → α × Int
  StopTx : α → α
  Reset : Option (α → α)

/-- The handle fields of `struct __device_intrf` (its data members; the
function slots live in `DevImpl`). -/
structure DEVINTRF (α : Type) where
  pDevData : α
  IntPrio : Int
  EvtCB : Option DEVINTRF_EVTCB
  Busy : Bool
  MaxRetry : Int
  EnCnt : Int

/-- Modelled from the spec: `atomic.h` is not under `src/`.
`AtomicInc` atomically increments the counter and returns the new
(post-increment) value — per the spec, Enable "increments enable ref-count.
If the pre-increment count was 0" it powers up, and the source guards with
`AtomicInc(&pDev->EnCnt) == 1`, so the returned value is the new one.
Result is `(stored value, returned value)`. -/
def AtomicInc (n : Int) : Int × Int := (n + 1, n + 1)

/-- Modelled from the spec: `atomic.h` is not under `src/`.
`AtomicDec` atomically decrements the counter and returns the new
(post-decrement) value — per the spec, Disable powers down "if the
post-decrement count is < 1", and the source guards with
`AtomicDec(&pDev->EnCnt) < 1`.  Result is `(stored value, returned value)`. -/
def AtomicDec (n : Int) : Int × Int := (n - 1, n - 1)

/-- Modelled from the spec: `atomic.h` is not under `src/`.
`AtomicTestAndSet` atomically sets the flag and returns its previous value
("atomic test-and-set ... a second concurrent Start attempt observes
failure").  Result is `(stored value, returned previous value)`. -/
def AtomicTestAndSet (b : Bool) : Bool × Bool := (true, b)

/-- Modelled from the spec: `atomic.h` is not under `src/`.
`AtomicClear` atomically clears the flag. -/
def AtomicClear : Bool := false

/-- `DeviceIntrfDisable` (device_intrf.h:253):
`if (AtomicDec(&pDev->EnCnt) < 1) pDev->Disable(pDev);` -/
def DeviceIntrfDisable (impl : DevImpl α) (pDev : DEVINTRF α) :
    DEVINTRF α × List ImplCall :=
  let r := AtomicDec pDev.EnCnt
  let d := { pDev with EnCnt := r.1 }
  if r.2 < 1 then
    ({ d with pDevData := impl.Disable d.pDevData }, [ImplCall.disable])
  else
    (d, [])

/-- `DeviceIntrfEnable` (device_intrf.h:266):
`if (AtomicInc(&pDev->EnCnt) == 1) pDev->Enable(pDev);` -/
def DeviceIntrfEnable (impl : DevImpl α) (pDev : DEVINTRF α) :
    DEVINTRF α × List ImplCall :=
  let r := AtomicInc pDev.EnCnt
  let d := { pDev with EnCnt := r.1 }
  if r.2 = 1 then
    ({ d with pDevData := impl.Enable d.pDevData }, [ImplCall.enable])
  else
    (d, [])

/-- `DeviceIntrfGetRate` (device_intrf.h:281): `return pDev->GetRate(pDev);` -/
def DeviceIntrfGetRate (impl : DevImpl α) (pDev : DEVINTRF α) : Int :=
  impl.GetRate pDev.pDevData

/-- `DeviceIntrfSetRate` (device_intrf.h:298):
`return pDev->SetRate(pDev, Rate);` -/
def DeviceIntrfSetRate (impl : DevImpl α) (pDev : DEVINTRF α) (Rate : Int) :
    DEVINTRF α × Int :=
  let r := impl.SetRate pDev.pDevData Rate
  ({ pDev with pDevData := r.1 }, r.2)

/-- `DeviceIntrfStartRx` (device_intrf.h:385): atomically test-and-set
`Busy`; if it was already set return `false` without touching the
implementation; otherwise invoke `pDev->StartRx` and, if that returned
`false`, clear `Busy` before returning `false`. -/
def DeviceIntrfStartRx (impl : DevImpl α) (pDev : DEVINTRF α)
    (DevAddr : Int) : DEVINTRF α × Bool × List ImplCall :=
  let t := AtomicTestAndSet pDev.Busy
  if t.2 then
    ({ pDev with Busy := t.1 }, false, [])
  else
    let d := { pDev with Busy := t.1 }
    let r := impl.StartRx d.pDevData DevAddr
    let d2 := { d with pDevData := r.1 }
    if r.2 = false then
      ({ d2 with Busy := AtomicClear }, false, [ImplCall.startRx DevAddr])
    else
      (d2, true, [ImplCall.startRx DevAddr])

/-- `DeviceIntrfRxData` (device_intrf.h:410):
`return pDev->RxData(pDev, pBuff, BuffLen);` -/
def DeviceIntrfRxData (impl : DevImpl α) (pDev : DEVINTRF α) (BuffLen : Int) :
    DEVINTRF α × Int × List ImplCall :=
  let r := impl.RxData pDev.pDevData BuffLen
  ({ pDev with pDevData := r.1 }, r.2, [ImplCall.rxDataC BuffLen])

/-- `DeviceIntrfStopRx` (device_intrf.h:422):
`pDev->StopRx(pDev); AtomicClear(&pDev->Busy);` -/
def DeviceIntrfStopRx (impl : DevImpl α) (pDev : DEVINTRF α) :
    DEVINTRF α × List ImplCall :=
  let d := { pDev with pDevData := impl.StopRx pDev.pDevData }
  ({ d with Busy := AtomicClear }, [ImplCall.stopRx])

/-- `DeviceIntrfStartTx` (device_intrf.h:446): same discipline as
`DeviceIntrfStartRx` with the Tx slot. -/
def DeviceIntrfStartTx (impl : DevImpl α) (pDev : DEVINTRF α)
    (DevAddr : Int) : DEVINTRF α × Bool × List ImplCall :=
  let t := AtomicTestAndSet pDev.Busy
  if t.2 then
    ({ pDev with Busy := t.1 }, false, [])
  else
    let d := { pDev with Busy := t.1 }
    let r := impl.StartTx d.pDevData DevAddr
    let d2 := { d with pDevData := r.1 }
    if r.2 = false then
      ({ d2 with Busy := AtomicClear }, false, [ImplCall.startTx DevAddr])
    else
      (d2, true, [ImplCall.startTx DevAddr])

/-- `DeviceIntrfTxData` (device_intrf.h:471):
`return pDev->TxData(pDev, pBuff, BuffLen);` -/
def DeviceIntrfTxData (impl : DevImpl α) (pDev : DEVINTRF α) (BuffLen : Int) :
    DEVINTRF α × Int × List ImplCall :=
  let r := impl.TxData pDev.pDevData BuffLen
  ({ pDev with pDevData := r.1 }, r.2, [ImplCall.txDataC BuffLen])

/-- `DeviceIntrfStopTx` (device_intrf.h:484):
`pDev->StopTx(pDev); AtomicClear(&pDev->Busy);` -/
def DeviceIntrfStopTx (impl : DevImpl α) (pDev : DEVINTRF α) :
    DEVINTRF α × List ImplCall :=
  let d := { pDev with pDevData := impl.StopTx pDev.pDevData }
  ({ d with Busy := AtomicClear }, [ImplCall.stopTx])

/-- `DeviceIntrfReset` (device_intrf.h:494):
`if (pDev->Reset) pDev->Reset(pDev);` — the only optional slot. -/
def DeviceIntrfReset (impl : DevImpl α) (pDev : DEVINTRF α) :
    DEVINTRF α × List ImplCall :=
  match impl.Reset with
  | some f => ({ pDev with pDevData := f pDev.pDevData }, [ImplCall.reset])
  | none => (pDev, [])

/-- The initial state of a handle: "Initial state: not busy, enable
count 0" with private data `a`. -/
def initDev (a : α) : DEVINTRF α :=
  { pDevData := a, IntPrio := 0, EvtCB := none, Busy := false,
    MaxRetry := 0, EnCnt := 0 }

/-!
## Composite operations (spec-modelled)

`DeviceIntrfRx`, `DeviceIntrfTx`, `DeviceIntrfRead` and `DeviceIntrfWrite`
are declared in `device_intrf.h` but defined in a translation unit of this
repository that is not under `src/`; they are modelled here from the spec.
-/

/-- Modelled from the spec: the definition of `DeviceIntrfRx`
(device_intrf.h:314 declaration) is not under `src/`.  Per the spec it is a
"composite convenience operation that sequences Start → Data → Stop; if
Start fails, the composite returns 0 ... without invoking the data or stop
phases", returning the number of bytes read. -/
def DeviceIntrfRx (impl : DevImpl α) (pDev : DEVINTRF α)
    (DevAddr BuffLen : Int) : DEVINTRF α × Int × List ImplCall :=
  let s := DeviceIntrfStartRx impl pDev DevAddr
  if s.2.1 then
    let d := DeviceIntrfRxData impl s.1 BuffLen
    let p := DeviceIntrfStopRx impl d.1
    (p.1, d.2.1, s.2.2 ++ d.2.2 ++ p.2)
  else
    (s.1, 0, s.2.2)

/-- Modelled from the spec: the definition of `DeviceIntrfTx`
(device_intrf.h:328 declaration) is not under `src/`.  Per the spec it
sequences Start → Data → Stop and "if Start fails, the composite returns 0
... without invoking the data or stop phases", returning the number of
bytes sent. -/
def DeviceIntrfTx (impl : DevImpl α) (pDev : DEVINTRF α)
    (DevAddr DataLen : Int) : DEVINTRF α × Int × List ImplCall :=
  let s := DeviceIntrfStartTx impl pDev DevAddr
  if s.2.1 then
    let d := DeviceIntrfTxData impl s.1 DataLen
    let p := DeviceIntrfStopTx impl d.1
    (p.1, d.2.1, s.2.2 ++ d.2.2 ++ p.2)
  else
    (s.1, 0, s.2.2)

/-- Modelled from the spec: the definition of `DeviceIntrfRead`
(device_intrf.h:345 declaration) is not under `src/`.  Per the spec it is a
"composite register-style transaction — send an address/command phase,
then perform the data phase" inside one Start…Stop bracket, with the
Start-failure behaviour of the composites (return 0, no data or stop
phase).  The address/command phase is a Tx-data transfer of `AdCmdLen`
bytes and the data phase an Rx-data transfer of `RxLen` bytes. -/
def DeviceIntrfRead (impl : DevImpl α) (pDev : DEVINTRF α)
    (DevAddr AdCmdLen RxLen : Int) : DEVINTRF α × Int × List ImplCall :=
  let s := DeviceIntrfStartRx impl pDev DevAddr
  if s.2.1 then
    let c := DeviceIntrfTxData impl s.1 AdCmdLen
    let d := DeviceIntrfRxData impl c.1 RxLen
    let p := DeviceIntrfStopRx impl d.1
    (p.1, d.2.1, s.2.2 ++ c.2.2 ++ d.2.2 ++ p.2)
  else
    (s.1, 0, s.2.2)

/-- Modelled from the spec: the definition of `DeviceIntrfWrite`
(device_intrf.h:363 declaration) is not under `src/`.  Per the spec it is a
"composite register-style transaction" that sends the address/command
phase (`AdCmdLen` bytes) then the data phase (`DataLen` bytes) inside one
Start…Stop bracket, returns the "number of bytes of data sent (not
counting the Addr/Cmd)", and when Start fails "returns 0 ... without
invoking the data or stop phases". -/
def DeviceIntrfWrite (impl : DevImpl α) (pDev : DEVINTRF α)
    (DevAddr AdCmdLen DataLen : Int) : DEVINTRF α × Int × List ImplCall :=
  let s := DeviceIntrfStartTx impl pDev DevAddr
  if s.2.1 then
    let c := DeviceIntrfTxData impl s.1 AdCmdLen
    let d := DeviceIntrfTxData impl c.1 DataLen
    let p := DeviceIntrfStopTx impl d.1
    (p.1, d.2.1, s.2.2 ++ c.2.2 ++ d.2.2 ++ p.2)
  else
    (s.1, 0, s.2.2)

/-!
## Call-sequence helpers

Executable drivers that replay sequences of wrapper calls on one handle,
used to state the sequence-shaped claims.
-/

/-- Run `n` consecutive `DeviceIntrfStartRx` calls on one handle with no
intervening `DeviceIntrfStopRx`, collecting the boolean results in order. -/
def startRxRepeat (impl : DevImpl α) (DevAddr : Int) :
    Nat → DEVINTRF α → DEVINTRF α × List Bool
  | 0, d => (d, [])
  | n + 1, d =>
      let r := DeviceIntrfStartRx impl d DevAddr
      let rest := startRxRepeat impl DevAddr n r.1
      (rest.1, r.2.1 :: rest.2)

/-- Run `n` consecutive `DeviceIntrfStartTx` calls on one handle with no
intervening `DeviceIntrfStopTx`, collecting the boolean results in order. -/
def startTxRepeat (impl : DevImpl α) (DevAddr : Int) :
    Nat → DEVINTRF α → DEVINTRF α × List Bool
  | 0, d => (d, [])
  | n + 1, d =>
      let r := DeviceIntrfStartTx impl d DevAddr
      let rest := startTxRepeat impl DevAddr n r.1
      (rest.1, r.2.1 :: rest.2)

/-- An element of a sequence of power-control calls. -/
inductive EDOp where
  | enable
  | disable
deriving DecidableEq, Repr

/-- Replay a sequence of `DeviceIntrfEnable` / `DeviceIntrfDisable` calls,
concatenating the implementation-call traces. -/
def runED (impl : DevImpl α) : List EDOp → DEVINTRF α → DEVINTRF α × List ImplCall
  | [], d => (d, [])
  | op :: rest, d =>
      let r := match op with
        | EDOp.enable => DeviceIntrfEnable impl d
        | EDOp.disable => DeviceIntrfDisable impl d
      let s := runED impl rest r.1
      (s.1, r.2 ++ s.2)

/-- `balancedFrom c ops` holds when, starting from enable count `c`, no
prefix of `ops` drives the running count of Enables minus Disables below
zero (i.e. no prefix contains more Disables than Enables plus `c`). -/
def balancedFrom : Int → List EDOp → Bool
  | _, [] => true
  | c, EDOp.enable :: rest => balancedFrom (c + 1) rest
  | c, EDOp.disable :: rest => decide (1 ≤ c) && balancedFrom (c - 1) rest

/-- A reference implementation whose private state is the hardware power
state: the `Enable` slot powers up, the `Disable` slot powers down; all
other slots leave it alone. -/
def PowerImpl : DevImpl Bool :=
  { Disable := fun _ => false
    Enable := fun _ => true
    GetRate := fun _ => 0
    SetRate := fun s _ => (s, 0)
    StartRx := fun s _ => (s, true)
    RxData := fun s _ => (s, 0)
    StopRx := fun s => s
    StartTx := fun s _ => (s, true)
    TxData := fun s _ => (s, 0)
    StopTx := fun s => s
    Reset := none }

/-- Is this implementation call a data-transfer phase (`RxData`/`TxData`)? -/
def ImplCall.isTransfer : ImplCall → Bool
  | ImplCall.rxDataC _ => true
  | ImplCall.txDataC _ => true
  | _ => false

/-- Is this implementation call a stop phase (`StopRx`/`StopTx`)? -/
def ImplCall.isStop : ImplCall → Bool
  | ImplCall.stopRx => true
  | ImplCall.stopTx => true
  | _ => false

/-- The rate contract the spec imposes on concrete implementations (which
live outside this repository): the implementation has a map `nearest` from
a requested rate to the nearest achievable rate; its `SetRate` slot applies
and returns `nearest r` (never the unattainable requested value verbatim),
and its `GetRate` slot, on the state `SetRate` produced, reads back the
rate that was applied. -/
def RateConforming (impl : DevImpl α) (nearest : Int → Int) : Prop :=
  (∀ s r, (impl.SetRate s r).2 = nearest r) ∧
  (∀ s r, impl.GetRate (impl.SetRate s r).1 = nearest r)

/-- A transport whose start routines always fail (e.g. a hardware fault on
every start condition); otherwise like `PowerImpl`. -/
def FailStartImpl : DevImpl Bool :=
  { PowerImpl with
    StartRx := fun s _ => (s, false)
    StartTx := fun s _ => (s, false) }

/-- A transport that populates the optional `Reset` slot. -/
def ResetSomeImpl : DevImpl Bool :=
  { PowerImpl with Reset := some (fun _ => true) }

/-- A nearest-achievable-rate map for a transport that can only run at
100 or 400 transfers per second. -/
def nearestRate (r : Int) : Int := if r ≤ 200 then 100 else 400

/-- A rate-conforming transport: its private state is the currently applied
rate; `SetRate` clamps to the nearest achievable rate, stores and returns
it; `GetRate` reads it back. -/
def RateImpl : DevImpl Int :=
  { Disable := fun s => s
    Enable := fun s => s
    GetRate := fun s => s
    SetRate := fun _ r => (nearestRate r, nearestRate r)
    StartRx := fun s _ => (s, true)
    RxData := fun s _ => (s, 0)
    StopRx := fun s => s
    StartTx := fun s _ => (s, true)
    TxData := fun s _ => (s, 0)
    StopTx := fun s => s
    Reset := none }

/-!
## Helper lemmas
-/

/-- A `DeviceIntrfStartRx` call on a handle whose busy flag is set fails
immediately: the state is unchanged and no implementation slot is invoked. -/
theorem startRx_busy_eq (impl : DevImpl α) (d : DEVINTRF α) (a : Int)
    (h : d.Busy = true) : DeviceIntrfStartRx impl d a = (d, false, []) := by
  cases d with
  | mk p ip cb b mr ec =>
    simp only at h
    subst h
    rfl

/-- A `DeviceIntrfStartTx` call on a handle whose busy flag is set fails
immediately: the state is unchanged and no implementation slot is invoked. -/
theorem startTx_busy_eq (impl : DevImpl α) (d : DEVINTRF α) (a : Int)
    (h : d.Busy = true) : DeviceIntrfStartTx impl d a = (d, false, []) := by
  cases d with
  | mk p ip cb b mr ec =>
    simp only at h
    subst h
    rfl

/-- A `DeviceIntrfStartRx` call on a non-busy handle whose implementation
start succeeds acquires the busy flag and reports success. -/
theorem startRx_free_succ (impl : DevImpl α) (d : DEVINTRF α) (a : Int)
    (hb : d.Busy = false) (hs : (impl.StartRx d.pDevData a).2 = true) :
    DeviceIntrfStartRx impl d a =
      ({ d with Busy := true, pDevData := (impl.StartRx d.pDevData a).1 },
        true, [ImplCall.startRx a]) := by
  simp [DeviceIntrfStartRx, AtomicTestAndSet, hb, hs]

/-- A `DeviceIntrfStartRx` call on a non-busy handle always invokes the
implementation start routine: its trace is the one start invocation. -/
theorem startRx_free_trace (impl : DevImpl α) (d : DEVINTRF α) (a : Int)
    (hb : d.Busy = false) :
    (DeviceIntrfStartRx impl d a).2.2 = [ImplCall.startRx a] := by
  cases hr : (impl.StartRx d.pDevData a).2 <;>
    simp [DeviceIntrfStartRx, AtomicTestAndSet, hb, hr]

/-- From a busy handle, every one of `n` repeated starts fails and the
state never changes. -/
theorem startRxRepeat_busy (impl : DevImpl α) (a : Int) (n : Nat) :
    ∀ d : DEVINTRF α, d.Busy = true →
      startRxRepeat impl a n d = (d, List.replicate n false) := by
  induction n with
  | zero => intro d _; rfl
  | succ n ih =>
      intro d h
      simp [startRxRepeat, startRx_busy_eq impl d a h, ih d h,
        List.replicate_succ]

/-- A `DeviceIntrfStartTx` call on a non-busy handle whose implementation
start succeeds acquires the busy flag and reports success. -/
theorem startTx_free_succ (impl : DevImpl α) (d : DEVINTRF α) (a : Int)
    (hb : d.Busy = false) (hs : (impl.StartTx d.pDevData a).2 = true) :
    DeviceIntrfStartTx impl d a =
      ({ d with Busy := true, pDevData := (impl.StartTx d.pDevData a).1 },
        true, [ImplCall.startTx a]) := by
  simp [DeviceIntrfStartTx, AtomicTestAndSet, hb, hs]

/-- From a busy handle, every one of `n` repeated transmit starts fails and
the state never changes. -/
theorem startTxRepeat_busy (impl : DevImpl α) (a : Int) (n : Nat) :
    ∀ d : DEVINTRF α, d.Busy = true →
      startTxRepeat impl a n d = (d, List.replicate n false) := by
  induction n with
  | zero => intro d _; rfl
  | succ n ih =>
      intro d h
      simp [startTxRepeat, startTx_busy_eq impl d a h, ih d h,
        List.replicate_succ]

/-- Counting `true` in a run of `false`s. -/
theorem count_replicate_false_true (n : Nat) :
    (List.replicate n false).count true = 0 := by
  induction n with
  | zero => rfl
  | succ n ih => simp [List.replicate_succ, List.count_cons, ih]

/-- Counting `false` in a run of `false`s. -/
theorem count_replicate_false_false (n : Nat) :
    (List.replicate n false).count false = n := by
  induction n with
  | zero => rfl
  | succ n ih => simp [List.replicate_succ, List.count_cons, ih]

/-!
## Claim theorems
-/

/-- C1 counterexample: on a fresh handle (busy flag clear) driven by an
implementation whose start routine fails, a sequence of N = 1
`DeviceIntrfStartRx` calls with no intervening stop yields zero calls
returning true — not exactly one as the claim states. -/
theorem startRx_exactly_one_counterexample :
    ¬ ((startRxRepeat FailStartImpl 0 1 (initDev false)).2.count true = 1) := by
  decide

/-- C1 (amended): a `DeviceIntrfStartRx` or `DeviceIntrfStartTx` call made
while the busy flag is already set returns false immediately, with the
handle unchanged and the implementation's start routine not invoked;
consequently, provided the implementation's start routines succeed when
invoked, of N ≥ 1 StartRx calls (and likewise of N ≥ 1 StartTx calls) on
one handle with no intervening Stop exactly one returns true and the other
N − 1 return false. -/
theorem startRx_mutual_exclusion (impl : DevImpl α) (d : DEVINTRF α)
    (a : Int) (N : Nat) (hb : d.Busy = false)
    (hsRx : ∀ s a2, (impl.StartRx s a2).2 = true)
    (hsTx : ∀ s a2, (impl.StartTx s a2).2 = true) (hN : 1 ≤ N) :
    ((startRxRepeat impl a N d).2.count true = 1 ∧
     (startRxRepeat impl a N d).2.count false = N - 1) ∧
    ((startTxRepeat impl a N d).2.count true = 1 ∧
     (startTxRepeat impl a N d).2.count false = N - 1) ∧
    (∀ d2 : DEVINTRF α, d2.Busy = true →
      DeviceIntrfStartRx impl d2 a = (d2, false, []) ∧
      DeviceIntrfStartTx impl d2 a = (d2, false, [])) := by
  refine ⟨?_, ?_, fun d2 h2 =>
    ⟨startRx_busy_eq impl d2 a h2, startTx_busy_eq impl d2 a h2⟩⟩
  · cases N with
    | zero => exact absurd hN (by omega)
    | succ n =>
        have h1 := startRx_free_succ impl d a hb (hsRx _ _)
        have h2 := startRxRepeat_busy impl a n { d with Busy := true, pDevData := (impl.StartRx d.pDevData a).1 } rfl
        simp [startRxRepeat, h1, h2, List.count_cons,
          count_replicate_false_true, count_replicate_false_false]
  · cases N with
    | zero => exact absurd hN (by omega)
    | succ n =>
        have h1 := startTx_free_succ impl d a hb (hsTx _ _)
        have h2 := startTxRepeat_busy impl a n { d with Busy := true, pDevData := (impl.StartTx d.pDevData a).1 } rfl
        simp [startTxRepeat, h1, h2, List.count_cons,
          count_replicate_false_true, count_replicate_false_false]

/-- Witness for `startRx_mutual_exclusion`: three receive starts and three
transmit starts on a fresh handle with an always-succeeding
implementation — one true, two false on each side. -/
theorem startRx_mutual_exclusion_witness :
    (initDev false : DEVINTRF Bool).Busy = false ∧
    ((startRxRepeat PowerImpl 0 3 (initDev false)).2.count true = 1 ∧
     (startRxRepeat PowerImpl 0 3 (initDev false)).2.count false = 3 - 1) ∧
    ((startTxRepeat PowerImpl 0 3 (initDev false)).2.count true = 1 ∧
     (startTxRepeat PowerImpl 0 3 (initDev false)).2.count false = 3 - 1) :=
  ⟨rfl, (startRx_mutual_exclusion PowerImpl (initDev false) 0 3 rfl
      (fun _ _ => rfl) (fun _ _ => rfl) (by decide)).1,
    (startRx_mutual_exclusion PowerImpl (initDev false) 0 3 rfl
      (fun _ _ => rfl) (fun _ _ => rfl) (by decide)).2.1⟩

/-- C2: whenever `DeviceIntrfStartRx` or `DeviceIntrfStartTx` returns
false — whether the busy flag was already set or the implementation's
start routine failed after the flag was acquired — the busy flag on return
equals its pre-call value: no lock is leaked. -/
theorem start_false_busy_unchanged (impl : DevImpl α) (d : DEVINTRF α)
    (a : Int) :
    ((DeviceIntrfStartRx impl d a).2.1 = false →
      (DeviceIntrfStartRx impl d a).1.Busy = d.Busy) ∧
    ((DeviceIntrfStartTx impl d a).2.1 = false →
      (DeviceIntrfStartTx impl d a).1.Busy = d.Busy) := by
  constructor
  · intro h
    cases hb : d.Busy
    · cases hr : (impl.StartRx d.pDevData a).2 <;>
        simp_all [DeviceIntrfStartRx, AtomicTestAndSet, AtomicClear]
    · rw [startRx_busy_eq impl d a hb]
      exact hb
  · intro h
    cases hb : d.Busy
    · cases hr : (impl.StartTx d.pDevData a).2 <;>
        simp_all [DeviceIntrfStartTx, AtomicTestAndSet, AtomicClear]
    · rw [startTx_busy_eq impl d a hb]
      exact hb

/-- Witness for `start_false_busy_unchanged`: a failing-start transport on
a fresh handle — both wrappers return false and leave the flag as found. -/
theorem start_false_busy_unchanged_witness :
    (DeviceIntrfStartRx FailStartImpl (initDev false) 0).1.Busy =
      (initDev false : DEVINTRF Bool).Busy ∧
    (DeviceIntrfStartTx FailStartImpl (initDev false) 0).1.Busy =
      (initDev false : DEVINTRF Bool).Busy :=
  ⟨(start_false_busy_unchanged FailStartImpl (initDev false) 0).1 rfl,
   (start_false_busy_unchanged FailStartImpl (initDev false) 0).2 rfl⟩

/-- C4: after a `DeviceIntrfStartRx` that returned true, calling
`DeviceIntrfStopRx` leaves the busy flag false again, and a subsequent
`DeviceIntrfStartRx` on the same handle acquires the flag: it is not
rejected for contention but proceeds to invoke the implementation's start
routine. -/
theorem stopRx_reopens (impl : DevImpl α) (d : DEVINTRF α) (a a2 : Int)
    (h : (DeviceIntrfStartRx impl d a).2.1 = true) :
    (DeviceIntrfStopRx impl (DeviceIntrfStartRx impl d a).1).1.Busy = false ∧
    (DeviceIntrfStartRx impl
        (DeviceIntrfStopRx impl (DeviceIntrfStartRx impl d a).1).1 a2).2.2 =
      [ImplCall.startRx a2] :=
  ⟨rfl, startRx_free_trace impl _ a2 rfl⟩

/-- Witness for `stopRx_reopens`: a fresh handle with an always-succeeding
implementation. -/
theorem stopRx_reopens_witness :
    (DeviceIntrfStopRx PowerImpl
        (DeviceIntrfStartRx PowerImpl (initDev false) 0).1).1.Busy = false ∧
    (DeviceIntrfStartRx PowerImpl
        (DeviceIntrfStopRx PowerImpl
          (DeviceIntrfStartRx PowerImpl (initDev false) 0).1).1 0).2.2 =
      [ImplCall.startRx 0] :=
  stopRx_reopens PowerImpl (initDev false) 0 0 rfl

/-- C7: `DeviceIntrfSetRate` delegates to the implementation and returns
the actual rate applied (the implementation's nearest achievable rate for
the request, never an unattainable requested value verbatim), and a
subsequent `DeviceIntrfGetRate` with no intervening set returns exactly
that rate. -/
theorem setRate_getRate_roundtrip (impl : DevImpl α) (nearest : Int → Int)
    (h : RateConforming impl nearest) (d : DEVINTRF α) (r : Int) :
    (DeviceIntrfSetRate impl d r).2 = nearest r ∧
    DeviceIntrfGetRate impl (DeviceIntrfSetRate impl d r).1 =
      (DeviceIntrfSetRate impl d r).2 := by
  refine ⟨h.1 d.pDevData r, ?_⟩
  show impl.GetRate (impl.SetRate d.pDevData r).1 = (impl.SetRate d.pDevData r).2
  rw [h.1 d.pDevData r, h.2 d.pDevData r]

/-- Witness for `setRate_getRate_roundtrip`: the two-speed transport
`RateImpl` asked for 100 transfers per second. -/
theorem setRate_getRate_roundtrip_witness :
    RateConforming RateImpl nearestRate ∧
    ((DeviceIntrfSetRate RateImpl (initDev 0) 100).2 = nearestRate 100 ∧
     DeviceIntrfGetRate RateImpl (DeviceIntrfSetRate RateImpl (initDev 0) 100).1 =
       (DeviceIntrfSetRate RateImpl (initDev 0) 100).2) :=
  ⟨⟨fun _ _ => rfl, fun _ _ => rfl⟩,
   setRate_getRate_roundtrip RateImpl nearestRate
     ⟨fun _ _ => rfl, fun _ _ => rfl⟩ (initDev 0) 100⟩

/-- C8: `DeviceIntrfReset` invokes the implementation's reset routine if
and only if the `Reset` slot is populated (an absent slot is skipped with
no effect), and it neither checks nor modifies the busy flag or the enable
count, so it behaves the same whether or not a bracket is open. -/
theorem reset_optional_no_busy (impl : DevImpl α) (d : DEVINTRF α)
    (b : Bool) :
    (DeviceIntrfReset impl d).1.Busy = d.Busy ∧
    (DeviceIntrfReset impl d).1.EnCnt = d.EnCnt ∧
    (impl.Reset = none → DeviceIntrfReset impl d = (d, [])) ∧
    (∀ f, impl.Reset = some f →
      (DeviceIntrfReset impl d).2 = [ImplCall.reset] ∧
      (DeviceIntrfReset impl d).1.pDevData = f d.pDevData) ∧
    (DeviceIntrfReset impl { d with Busy := b }).1 =
      { (DeviceIntrfReset impl d).1 with Busy := b } ∧
    (DeviceIntrfReset impl { d with Busy := b }).2 =
      (DeviceIntrfReset impl d).2 := by
  cases hr : impl.Reset <;>
    simp [DeviceIntrfReset, hr]

/-- Witness for `reset_optional_no_busy`: a transport without a reset slot
is untouched; one with a reset slot invokes it exactly once. -/
theorem reset_optional_no_busy_witness :
    DeviceIntrfReset PowerImpl (initDev false) = (initDev false, []) ∧
    (DeviceIntrfReset ResetSomeImpl (initDev false)).2 = [ImplCall.reset] :=
  ⟨(reset_optional_no_busy PowerImpl (initDev false) true).2.2.1 rfl,
   ((reset_optional_no_busy ResetSomeImpl (initDev false) true).2.2.2.1
      (fun _ => true) rfl).1⟩

/-- C9: `DeviceIntrfRxData` and `DeviceIntrfTxData` delegate directly to
the implementation's `RxData`/`TxData` slot and return its byte count
(which may be less than the requested length); the wrapper itself neither
reads nor modifies the busy flag, the enable count, or any other handle
field — the private data changes exactly as the implementation slot
dictates. -/
theorem rxTxData_frame (impl : DevImpl α) (d : DEVINTRF α) (len : Int) :
    ((DeviceIntrfRxData impl d len).1.Busy = d.Busy ∧
     (DeviceIntrfRxData impl d len).1.EnCnt = d.EnCnt ∧
     (DeviceIntrfRxData impl d len).1.IntPrio = d.IntPrio ∧
     (DeviceIntrfRxData impl d len).1.MaxRetry = d.MaxRetry ∧
     (DeviceIntrfRxData impl d len).1.EvtCB = d.EvtCB ∧
     (DeviceIntrfRxData impl d len).1.pDevData = (impl.RxData d.pDevData len).1 ∧
     (DeviceIntrfRxData impl d len).2.1 = (impl.RxData d.pDevData len).2) ∧
    ((DeviceIntrfTxData impl d len).1.Busy = d.Busy ∧
     (DeviceIntrfTxData impl d len).1.EnCnt = d.EnCnt ∧
     (DeviceIntrfTxData impl d len).1.IntPrio = d.IntPrio ∧
     (DeviceIntrfTxData impl d len).1.MaxRetry = d.MaxRetry ∧
     (DeviceIntrfTxData impl d len).1.EvtCB = d.EvtCB ∧
     (DeviceIntrfTxData impl d len).1.pDevData = (impl.TxData d.pDevData len).1 ∧
     (DeviceIntrfTxData impl d len).2.1 = (impl.TxData d.pDevData len).2) :=
  ⟨⟨rfl, rfl, rfl, rfl, rfl, rfl, rfl⟩, ⟨rfl, rfl, rfl, rfl, rfl, rfl, rfl⟩⟩

/-- C10: `DeviceIntrfStopRx` and `DeviceIntrfStopTx` unconditionally
invoke the implementation's stop routine exactly once and leave the busy
flag false afterwards, for every handle state — including when the busy
flag was not set: the wrappers perform no check that a bracket is open. -/
theorem stop_unconditional (impl : DevImpl α) (d : DEVINTRF α) :
    ((DeviceIntrfStopRx impl d).1.Busy = false ∧
     (DeviceIntrfStopRx impl d).2 = [ImplCall.stopRx] ∧
     (DeviceIntrfStopRx impl d).1.pDevData = impl.StopRx d.pDevData ∧
     (DeviceIntrfStopRx impl d).1.EnCnt = d.EnCnt) ∧
    ((DeviceIntrfStopTx impl d).1.Busy = false ∧
     (DeviceIntrfStopTx impl d).2 = [ImplCall.stopTx] ∧
     (DeviceIntrfStopTx impl d).1.pDevData = impl.StopTx d.pDevData ∧
     (DeviceIntrfStopTx impl d).1.EnCnt = d.EnCnt) :=
  ⟨⟨rfl, rfl, rfl, rfl⟩, ⟨rfl, rfl, rfl, rfl⟩⟩

/-- Replaying a concatenated call sequence is replaying the pieces in
order, with the traces concatenated. -/
theorem runED_append (impl : DevImpl α) (l1 l2 : List EDOp) :
    ∀ d : DEVINTRF α,
      runED impl (l1 ++ l2) d =
        ((runED impl l2 (runED impl l1 d).1).1,
         (runED impl l1 d).2 ++ (runED impl l2 (runED impl l1 d).1).2) := by
  induction l1 with
  | nil => intro d; simp [runED]
  | cons op rest ih =>
      intro d
      cases op <;> simp [runED, ih, List.append_assoc]

/-- With the enable count already positive, `k` further Enables only
raise the count: the implementation's power-up routine is never invoked. -/
theorem runED_enables_pos (impl : DevImpl α) (k : Nat) :
    ∀ d : DEVINTRF α, 1 ≤ d.EnCnt →
      runED impl (List.replicate k EDOp.enable) d =
        ({ d with EnCnt := d.EnCnt + (k : Int) }, []) := by
  induction k with
  | zero =>
      intro d _
      have : d.EnCnt + ((0 : Nat) : Int) = d.EnCnt := by norm_num
      rw [List.replicate_zero, this]
      rfl
  | succ k ih =>
      intro d h
      have hne : ¬ ((AtomicInc d.EnCnt).2 = 1) := by
        simp only [AtomicInc]
        omega
      rw [List.replicate_succ]
      simp only [runED, DeviceIntrfEnable, if_neg hne]
      rw [ih { d with EnCnt := (AtomicInc d.EnCnt).1 } (by simp only [AtomicInc]; omega)]
      simp only [AtomicInc]
      have hc : d.EnCnt + 1 + (k : Int) = d.EnCnt + ((k + 1 : Nat) : Int) := by
        push_cast
        ring
      rw [hc]
      rfl

/-- From enable count 0, a block of `k ≥ 1` Enables invokes the
implementation's power-up routine exactly once — on the first call, the
0 to 1 transition — and leaves the count at `k`. -/
theorem runED_enable_from_zero (impl : DevImpl α) (k : Nat) (d : DEVINTRF α)
    (h0 : d.EnCnt = 0) (hk : 1 ≤ k) :
    runED impl (List.replicate k EDOp.enable) d =
      ({ d with EnCnt := (k : Int), pDevData := impl.Enable d.pDevData },
        [ImplCall.enable]) := by
  cases k with
  | zero => exact absurd hk (by omega)
  | succ k =>
      have hfire : (AtomicInc d.EnCnt).2 = 1 := by
        simp only [AtomicInc, h0]
        norm_num
      rw [List.replicate_succ]
      simp only [runED, DeviceIntrfEnable, if_pos hfire]
      rw [runED_enables_pos impl k _ (by simp only [AtomicInc, h0]; omega)]
      simp only [AtomicInc, h0]
      have hc : (0 : Int) + 1 + (k : Int) = ((k + 1 : Nat) : Int) := by
        push_cast
        ring
      rw [hc]
      rfl

/-- With the enable count strictly above `k`, `k` Disables only lower the
count: the implementation's power-down routine is never invoked. -/
theorem runED_disables_ge (impl : DevImpl α) (k : Nat) :
    ∀ d : DEVINTRF α, (k : Int) + 1 ≤ d.EnCnt →
      runED impl (List.replicate k EDOp.disable) d =
        ({ d with EnCnt := d.EnCnt - (k : Int) }, []) := by
  induction k with
  | zero =>
      intro d _
      have : d.EnCnt - ((0 : Nat) : Int) = d.EnCnt := by norm_num
      rw [List.replicate_zero, this]
      rfl
  | succ k ih =>
      intro d h
      have hge : ¬ ((AtomicDec d.EnCnt).2 < 1) := by
        simp only [AtomicDec]
        push_cast at h
        omega
      rw [List.replicate_succ]
      simp only [runED, DeviceIntrfDisable, if_neg hge]
      rw [ih { d with EnCnt := (AtomicDec d.EnCnt).1 }
        (by simp only [AtomicDec]; push_cast at h ⊢; omega)]
      simp only [AtomicDec]
      have hc : d.EnCnt - 1 - (k : Int) = d.EnCnt - ((k + 1 : Nat) : Int) := by
        push_cast
        ring
      rw [hc]
      rfl

/-- From enable count `k ≥ 1`, a block of `k` Disables invokes the
implementation's power-down routine exactly once — on the last call, the
1 to 0 transition — and leaves the count at 0. -/
theorem runED_disable_to_zero (impl : DevImpl α) (k : Nat) :
    ∀ d : DEVINTRF α, d.EnCnt = (k : Int) → 1 ≤ k →
      runED impl (List.replicate k EDOp.disable) d =
        ({ d with EnCnt := 0, pDevData := impl.Disable d.pDevData },
          [ImplCall.disable]) := by
  induction k with
  | zero => intro d _ hk; exact absurd hk (by omega)
  | succ k ih =>
      intro d h0 _
      cases k with
      | zero =>
          have hfire : (AtomicDec d.EnCnt).2 < 1 := by
            simp only [AtomicDec, h0]
            norm_num
          rw [List.replicate_succ, List.replicate_zero]
          simp only [runED, DeviceIntrfDisable, if_pos hfire]
          simp only [AtomicDec, h0]
          norm_num
      | succ m =>
          have hge : ¬ ((AtomicDec d.EnCnt).2 < 1) := by
            simp only [AtomicDec, h0]
            push_cast
            omega
          have hstep : DeviceIntrfDisable impl d =
              ({ d with EnCnt := (AtomicDec d.EnCnt).1 }, []) := by
            simp only [DeviceIntrfDisable, if_neg hge]
          have hih := ih { d with EnCnt := (AtomicDec d.EnCnt).1 }
            (by simp only [AtomicDec, h0]; push_cast; ring) (by omega)
          have hcons :
              runED impl (List.replicate (m + 1 + 1) EDOp.disable) d =
                ((runED impl (List.replicate (m + 1) EDOp.disable)
                    (DeviceIntrfDisable impl d).1).1,
                  (DeviceIntrfDisable impl d).2 ++
                    (runED impl (List.replicate (m + 1) EDOp.disable)
                      (DeviceIntrfDisable impl d).1).2) := rfl
          rw [hcons, hstep, hih]
          rfl

/-- C3: starting from enable count 0, `k ≥ 1` `DeviceIntrfEnable` calls
followed by `k` `DeviceIntrfDisable` calls invoke the implementation's
Enable routine exactly once (on the first Enable) and its Disable routine
exactly once (on the last Disable) — the whole trace is the one power-up
followed by the one power-down — and the count returns to 0. -/
theorem enable_disable_refcount_once (impl : DevImpl α) (d : DEVINTRF α)
    (k : Nat) (h0 : d.EnCnt = 0) (hk : 1 ≤ k) :
    (runED impl (List.replicate k EDOp.enable ++
        List.replicate k EDOp.disable) d).2 =
      [ImplCall.enable, ImplCall.disable] ∧
    (runED impl (List.replicate k EDOp.enable ++
        List.replicate k EDOp.disable) d).1.EnCnt = 0 := by
  have h1 := runED_enable_from_zero impl k d h0 hk
  have h2 := runED_disable_to_zero impl k
    { d with EnCnt := (k : Int), pDevData := impl.Enable d.pDevData } rfl hk
  rw [runED_append, h1]
  simp only [Prod.fst, Prod.snd] at *
  rw [h2]
  exact ⟨rfl, rfl⟩

/-- Invariant carried through any balanced power-call sequence: the count
stays nonnegative and the `PowerImpl` hardware state tracks count > 0. -/
theorem runED_power_invariant (ops : List EDOp) :
    ∀ d : DEVINTRF Bool, 0 ≤ d.EnCnt →
      (d.pDevData = true ↔ 0 < d.EnCnt) →
      balancedFrom d.EnCnt ops = true →
      0 ≤ (runED PowerImpl ops d).1.EnCnt ∧
      ((runED PowerImpl ops d).1.pDevData = true ↔
        0 < (runED PowerImpl ops d).1.EnCnt) := by
  induction ops with
  | nil => intro d h1 h2 _; exact ⟨h1, h2⟩
  | cons op rest ih =>
      intro d h1 h2 h3
      cases op with
      | enable =>
          have hproj : (runED PowerImpl (EDOp.enable :: rest) d).1 =
              (runED PowerImpl rest (DeviceIntrfEnable PowerImpl d).1).1 := rfl
          rw [hproj]
          by_cases hc : (AtomicInc d.EnCnt).2 = 1
          · have hfire : (DeviceIntrfEnable PowerImpl d).1 =
                { d with EnCnt := (AtomicInc d.EnCnt).1, pDevData := true } := by
              simp only [DeviceIntrfEnable, if_pos hc]
              rfl
            rw [hfire]
            apply ih
            · show 0 ≤ d.EnCnt + 1
              omega
            · show true = true ↔ 0 < d.EnCnt + 1
              simp
              omega
            · exact h3
          · have hnof : (DeviceIntrfEnable PowerImpl d).1 =
                { d with EnCnt := (AtomicInc d.EnCnt).1 } := by
              simp only [DeviceIntrfEnable, if_neg hc]
            rw [hnof]
            have hge1 : 1 ≤ d.EnCnt := by
              simp only [AtomicInc] at hc
              omega
            have hd : d.pDevData = true := h2.mpr (by omega)
            apply ih
            · show 0 ≤ d.EnCnt + 1
              omega
            · show d.pDevData = true ↔ 0 < d.EnCnt + 1
              rw [hd]
              simp
              omega
            · exact h3
      | disable =>
          have hproj : (runED PowerImpl (EDOp.disable :: rest) d).1 =
              (runED PowerImpl rest (DeviceIntrfDisable PowerImpl d).1).1 := rfl
          rw [hproj]
          have h3x : 1 ≤ d.EnCnt ∧ balancedFrom (d.EnCnt - 1) rest = true := by
            simpa [balancedFrom, Bool.and_eq_true, decide_eq_true_eq] using h3
          by_cases hc : (AtomicDec d.EnCnt).2 < 1
          · have hfire : (DeviceIntrfDisable PowerImpl d).1 =
                { d with EnCnt := (AtomicDec d.EnCnt).1, pDevData := false } := by
              simp only [DeviceIntrfDisable, if_pos hc]
              rfl
            rw [hfire]
            have hlt : d.EnCnt - 1 < 1 := by
              simpa [AtomicDec] using hc
            apply ih
            · show 0 ≤ d.EnCnt - 1
              omega
            · show false = true ↔ 0 < d.EnCnt - 1
              simp
              omega
            · exact h3x.2
          · have hnof : (DeviceIntrfDisable PowerImpl d).1 =
                { d with EnCnt := (AtomicDec d.EnCnt).1 } := by
              simp only [DeviceIntrfDisable, if_neg hc]
            rw [hnof]
            have hge : 1 ≤ d.EnCnt - 1 := by
              simp only [AtomicDec] at hc
              omega
            have hd : d.pDevData = true := h2.mpr (by omega)
            apply ih
            · show 0 ≤ d.EnCnt - 1
              omega
            · show d.pDevData = true ↔ 0 < d.EnCnt - 1
              rw [hd]
              simp
              omega
            · exact h3x.2

/-- Witness for `enable_disable_refcount_once` at k = 2 on a fresh
handle. -/
theorem enable_disable_refcount_once_witness :
    ((runED PowerImpl (List.replicate 2 EDOp.enable ++
        List.replicate 2 EDOp.disable) (initDev false)).2 =
      [ImplCall.enable, ImplCall.disable] ∧
     (runED PowerImpl (List.replicate 2 EDOp.enable ++
        List.replicate 2 EDOp.disable) (initDev false)).1.EnCnt = 0) :=
  enable_disable_refcount_once PowerImpl (initDev false) 2 rfl (by decide)

/-- C5 counterexample: a single `DeviceIntrfDisable` on a fresh handle
(count 0) drives the enable reference count to −1: the code has no guard
against the count going negative, so the invariant fails for this call
sequence. -/
theorem enable_count_nonneg_counterexample :
    ¬ (0 ≤ (runED PowerImpl [EDOp.disable] (initDev false)).1.EnCnt) := by
  decide

/-- C5 (amended): for every sequence of `DeviceIntrfEnable` and
`DeviceIntrfDisable` calls from the initial state in which no prefix
contains more Disables than Enables, the enable reference count stays
nonnegative and the hardware power state (tracked by `PowerImpl`) is on
exactly when the count is positive. -/
theorem enable_count_invariant_balanced (ops : List EDOp)
    (hbal : balancedFrom 0 ops = true) :
    0 ≤ (runED PowerImpl ops (initDev false)).1.EnCnt ∧
    ((runED PowerImpl ops (initDev false)).1.pDevData = true ↔
      0 < (runED PowerImpl ops (initDev false)).1.EnCnt) := by
  apply runED_power_invariant ops (initDev false)
  · show (0 : Int) ≤ 0
    omega
  · show false = true ↔ (0 : Int) < 0
    simp
  · exact hbal

/-- Witness for `enable_count_invariant_balanced` on the balanced sequence
Enable, Enable, Disable, Disable. -/
theorem enable_count_invariant_balanced_witness :
    balancedFrom 0 [EDOp.enable, EDOp.enable, EDOp.disable,
      EDOp.disable] = true ∧
    (0 ≤ (runED PowerImpl [EDOp.enable, EDOp.enable, EDOp.disable,
        EDOp.disable] (initDev false)).1.EnCnt ∧
     ((runED PowerImpl [EDOp.enable, EDOp.enable, EDOp.disable,
        EDOp.disable] (initDev false)).1.pDevData = true ↔
      0 < (runED PowerImpl [EDOp.enable, EDOp.enable, EDOp.disable,
        EDOp.disable] (initDev false)).1.EnCnt)) :=
  ⟨rfl, enable_count_invariant_balanced
    [EDOp.enable, EDOp.enable, EDOp.disable, EDOp.disable] rfl⟩

/-- A `DeviceIntrfStartTx` call invokes the implementation start routine
at most once: busy-rejection leaves an empty trace. -/
theorem startTx_trace_cases (impl : DevImpl α) (d : DEVINTRF α) (a : Int) :
    (DeviceIntrfStartTx impl d a).2.2 = [] ∨
    (DeviceIntrfStartTx impl d a).2.2 = [ImplCall.startTx a] := by
  cases hb : d.Busy
  · cases hr : (impl.StartTx d.pDevData a).2 <;>
      simp [DeviceIntrfStartTx, AtomicTestAndSet, hb, hr]
  · left
    rw [startTx_busy_eq impl d a hb]

/-- A `DeviceIntrfStartRx` call invokes the implementation start routine
at most once: busy-rejection leaves an empty trace. -/
theorem startRx_trace_cases (impl : DevImpl α) (d : DEVINTRF α) (a : Int) :
    (DeviceIntrfStartRx impl d a).2.2 = [] ∨
    (DeviceIntrfStartRx impl d a).2.2 = [ImplCall.startRx a] := by
  cases hb : d.Busy
  · cases hr : (impl.StartRx d.pDevData a).2 <;>
      simp [DeviceIntrfStartRx, AtomicTestAndSet, hb, hr]
  · left
    rw [startRx_busy_eq impl d a hb]

/-- C6: when the initial Start succeeds, the composite `DeviceIntrfWrite`
performs exactly two data-transfer phases — the address/command phase then
the data phase — and `DeviceIntrfRead` likewise; when the Start fails,
`DeviceIntrfWrite`, `DeviceIntrfTx`, `DeviceIntrfRead` and `DeviceIntrfRx`
perform zero transfer phases and zero stop phases and return 0 (no bytes
transferred). -/
theorem composite_phase_counts (impl : DevImpl α) (d : DEVINTRF α)
    (a cl dl : Int) :
    ((DeviceIntrfStartTx impl d a).2.1 = true →
      (DeviceIntrfWrite impl d a cl dl).2.2.filter ImplCall.isTransfer =
        [ImplCall.txDataC cl, ImplCall.txDataC dl]) ∧
    ((DeviceIntrfStartTx impl d a).2.1 = false →
      ((DeviceIntrfWrite impl d a cl dl).2.2.filter ImplCall.isTransfer = [] ∧
       (DeviceIntrfWrite impl d a cl dl).2.2.filter ImplCall.isStop = [] ∧
       (DeviceIntrfWrite impl d a cl dl).2.1 = 0 ∧
       (DeviceIntrfTx impl d a dl).2.2.filter ImplCall.isTransfer = [] ∧
       (DeviceIntrfTx impl d a dl).2.2.filter ImplCall.isStop = [] ∧
       (DeviceIntrfTx impl d a dl).2.1 = 0)) ∧
    ((DeviceIntrfStartRx impl d a).2.1 = true →
      (DeviceIntrfRead impl d a cl dl).2.2.filter ImplCall.isTransfer =
        [ImplCall.txDataC cl, ImplCall.rxDataC dl]) ∧
    ((DeviceIntrfStartRx impl d a).2.1 = false →
      ((DeviceIntrfRead impl d a cl dl).2.2.filter ImplCall.isTransfer = [] ∧
       (DeviceIntrfRead impl d a cl dl).2.2.filter ImplCall.isStop = [] ∧
       (DeviceIntrfRead impl d a cl dl).2.1 = 0 ∧
       (DeviceIntrfRx impl d a dl).2.2.filter ImplCall.isTransfer = [] ∧
       (DeviceIntrfRx impl d a dl).2.2.filter ImplCall.isStop = [] ∧
       (DeviceIntrfRx impl d a dl).2.1 = 0)) := by
  have htxf : (DeviceIntrfStartTx impl d a).2.2.filter ImplCall.isTransfer = [] := by
    rcases startTx_trace_cases impl d a with h0 | h0 <;>
      simp [h0, ImplCall.isTransfer]
  have htxs : (DeviceIntrfStartTx impl d a).2.2.filter ImplCall.isStop = [] := by
    rcases startTx_trace_cases impl d a with h0 | h0 <;>
      simp [h0, ImplCall.isStop]
  have hrxf : (DeviceIntrfStartRx impl d a).2.2.filter ImplCall.isTransfer = [] := by
    rcases startRx_trace_cases impl d a with h0 | h0 <;>
      simp [h0, ImplCall.isTransfer]
  have hrxs : (DeviceIntrfStartRx impl d a).2.2.filter ImplCall.isStop = [] := by
    rcases startRx_trace_cases impl d a with h0 | h0 <;>
      simp [h0, ImplCall.isStop]
  refine ⟨?_, ?_, ?_, ?_⟩
  · intro h
    simp [DeviceIntrfWrite, DeviceIntrfTxData, DeviceIntrfStopTx, h,
      List.filter_append, htxf, ImplCall.isTransfer]
  · intro h
    simp [DeviceIntrfWrite, DeviceIntrfTx, h, htxf, htxs]
  · intro h
    simp [DeviceIntrfRead, DeviceIntrfTxData, DeviceIntrfRxData,
      DeviceIntrfStopRx, h, List.filter_append, hrxf, ImplCall.isTransfer]
  · intro h
    simp [DeviceIntrfRead, DeviceIntrfRx, h, hrxf, hrxs]

/-- Witness for `composite_phase_counts`: an always-succeeding and an
always-failing transport on a fresh handle. -/
theorem composite_phase_counts_witness :
    ((DeviceIntrfStartTx PowerImpl (initDev false) 7).2.1 = true ∧
     (DeviceIntrfWrite PowerImpl (initDev false) 7 2 5).2.2.filter
        ImplCall.isTransfer = [ImplCall.txDataC 2, ImplCall.txDataC 5]) ∧
    ((DeviceIntrfStartTx FailStartImpl (initDev false) 7).2.1 = false ∧
     (DeviceIntrfWrite FailStartImpl (initDev false) 7 2 5).2.1 = 0) :=
  ⟨⟨rfl, (composite_phase_counts PowerImpl (initDev false) 7 2 5).1 rfl⟩,
   ⟨rfl, ((composite_phase_counts FailStartImpl (initDev false) 7 2 5).2.1
      rfl).2.2.1⟩⟩
